import Mathlib

/-!
Verification of the structflag repository: a shallow embedding of the
reflective field-walking / flag-binding engine (`structflag.go`) together
with the post-parse environment overlay (`FlagSet.Parse`), and theorems
settling the frozen claims about it.

Conventions of the embedding:
* Go struct types and values are modelled by the mutual inductives
  `GoType`/`GoFields`/`GoField` and `GoValue`/`GoValueList`.
* A Go `panic` at build time is modelled as `Except.error` propagating
  out of the walk.
* The underlying flag engine (spf13/pflag) is an external collaborator;
  it is modelled only through the narrow contract the repository uses:
  a list of registrations produced by the walk, and for `Parse` a list
  of flags, each with a stored (rendered) value and a `set` operation
  `currentValue → input → (newValue, error?)`.  A custom `pflag.Value`'s
  `Set` may mutate the stored value even when it reports an error, which
  this signature captures.
-/

namespace Structflag

/-- Go `strings.ToUpper` (external Go standard library collaborator):
upper-case every character. -/
def goToUpper (s : String) : String :=
  String.mk (s.data.map Char.toUpper)

/-- Go `strings.ReplaceAll(s, old, new)` for the single-character
patterns the source uses (`-`→`_` and `.`→`_`). -/
def goReplaceChar (old nw : Char) (s : String) : String :=
  String.mk (s.data.map (fun c => if c = old then nw else c))

/-- The characters before the first comma: `strings.SplitN(v, ",", 2)[0]`. -/
def takeUntilComma : List Char → List Char
  | [] => []
  | c :: cs => if c = ',' then [] else c :: takeUntilComma cs

/-- Go `strings.TrimSpace`: drop leading and trailing whitespace. -/
def goTrimSpace (s : String) : String :=
  String.mk (((s.data.dropWhile Char.isWhitespace).reverse.dropWhile
    Char.isWhitespace).reverse)

/-- Default `FlagNameFunc` from `DefaultConfig` (structflag.go:48-53):
if the name contains a comma, keep the part before the first comma and
trim surrounding whitespace (tolerates `json:"name,omitempty"`-style tags). -/
def defaultFlagNameFunc (v : String) : String :=
  if v.data.any (fun c => c == ',') then goTrimSpace (String.mk (takeUntilComma v.data))
  else v

/-- Default `EnvNameFunc` from `DefaultConfig` (structflag.go:45-47):
the environment prefix followed by the upper-cased flag name with `-` and
`.` replaced by `_`. -/
def defaultEnvName (envPfx : String) (name : String) : String :=
  envPfx ++ goReplaceChar '.' '_' (goReplaceChar '-' '_' (goToUpper name))

/-- The `Config` structure (structflag.go:20-32).  The pflag error
handling mode is an external-engine detail and is not modelled.
`envPfx` models the field `EnvPrefix`. -/
structure Config where
  EnvvarSupport : Bool
  envPfx : String
  EnvNameFunc : String → String
  FlagnameTags : List String
  FlagNameFunc : String → String
  ShorthandTag : String
  HelpTextTag : String

/-- `DefaultConfig` (structflag.go:34-55); the `ENV_PREFIX` environment
variable read at construction time is passed in as `envPfx`. -/
def DefaultConfig (envPfx : String) : Config :=
  { EnvvarSupport := true
    envPfx := envPfx
    EnvNameFunc := defaultEnvName envPfx
    FlagnameTags := ["flag"]
    FlagNameFunc := defaultFlagNameFunc
    ShorthandTag := "short"
    HelpTextTag := "help" }

mutual
/-- The universe of Go types relevant to the walker: the supported leaf
kinds (`reflect.Bool`, `Float64`, `Int64`, `time.Duration` as a distinct
case of `Int64`, `Int`, `String`, `Uint64`, `Uint`), a named custom type
implementing `pflag.Value` via a pointer receiver (such as the test's
`LogLevel`), pointers, structs, slices, and a catch-all for every other
kind (map, interface, func, chan, unsupported scalars), carrying its
printed form. -/
inductive GoType where
  | bool
  | float64
  | int64
  | duration
  | int
  | string
  | uint64
  | uint
  | custom (name : String)
  | ptr (elem : GoType)
  | structT (fields : GoFields)
  | slice (elem : GoType)
  | unsupported (kindName : String)

/-- A list of struct fields (kept as its own inductive so that the
mutual recursion with `GoType` stays structural). -/
inductive GoFields where
  | nil
  | cons (f : GoField) (rest : GoFields)

/-- One struct field: its Go name, its tag key/value pairs, whether it is
embedded/anonymous, whether it is exported, and its type. -/
inductive GoField where
  | mk (name : String) (tags : List (String × String)) (anonymous : Bool)
      (exported : Bool) (ty : GoType)
end

def GoField.name : GoField → String
  | .mk n _ _ _ _ => n

def GoField.tags : GoField → List (String × String)
  | .mk _ t _ _ _ => t

def GoField.anonymous : GoField → Bool
  | .mk _ _ a _ _ => a

def GoField.exported : GoField → Bool
  | .mk _ _ _ e _ => e

def GoField.ty : GoField → GoType
  | .mk _ _ _ _ t => t

mutual
/-- Runtime values of the modelled Go types.  `float64` payloads carry
the raw bit pattern (never interpreted arithmetically); `custom` carries
the type name and the rendered value (e.g. `LogLevel "WARN"`); `other`
is the value of an unsupported-kind type (never inspected, since such
fields panic before their value is used). -/
inductive GoValue where
  | bool (b : Bool)
  | float64 (bits : Nat)
  | int64 (i : Int)
  | duration (i : Int)
  | int (i : Int)
  | string (s : String)
  | uint64 (n : Nat)
  | uint (n : Nat)
  | custom (tyName : String) (s : String)
  | nilPtr
  | ptr (v : GoValue)
  | structV (fields : GoValueList)
  | slice (elems : GoValueList)
  | other

/-- A list of values (struct field values or slice elements). -/
inductive GoValueList where
  | nil
  | cons (v : GoValue) (rest : GoValueList)
end

/-- `reflect.StructTag.Lookup`: the value of tag `key`, if present. -/
def lookupTag (tags : List (String × String)) (key : String) : Option String :=
  match tags.find? (fun p => p.1 == key) with
  | some p => some p.2
  | none => none

/-- The flag-name resolution loop at the head of `Builder.walk`
(structflag.go:102-111): starting from the raw field name, iterate `j`
from `len(FlagnameTags)-1` down to `0` and, whenever the field carries
tag `FlagnameTags[j]`, overwrite the name with that tag's value and set
`hasFlagname`.  The descending Go loop is the fold over the reversed
tag list. -/
def resolveFieldName (flagnameTags : List String) (tags : List (String × String))
    (rawName : String) : String × Bool :=
  flagnameTags.reverse.foldl
    (fun acc key =>
      match lookupTag tags key with
      | some v => (v, true)
      | none => acc)
    (rawName, false)

/-- The capability check of `Builder.walkField` (structflag.go:166-187):
take the field value's type, address it when it is not already a pointer,
and test whether the resulting pointer type implements `pflag.Value`.
In this universe only a `custom` type implements `pflag.Value`, with a
pointer receiver, so the check succeeds exactly for `custom` itself
(checked through its address `*custom`) and for `ptr custom`. -/
def implementsFlagValue : GoType → Bool
  | .custom _ => true
  | .ptr (.custom _) => true
  | _ => false

/-- The `pflag.Value.Type()` name used for a capability registration. -/
def valueTypeName : GoType → String
  | .custom n => n
  | .ptr (.custom n) => n
  | _ => ""

mutual
/-- Go's printed form of a type (used in panic messages). -/
def typeString : GoType → String
  | .bool => "bool"
  | .float64 => "float64"
  | .int64 => "int64"
  | .duration => "time.Duration"
  | .int => "int"
  | .string => "string"
  | .uint64 => "uint64"
  | .uint => "uint"
  | .custom n => n
  | .ptr t => "*" ++ typeString t
  | .structT fs => "struct \x7b" ++ fieldsString fs ++ "\x7d"
  | .slice t => "[]" ++ typeString t
  | .unsupported n => n

/-- Printed form of a struct's field list. -/
def fieldsString : GoFields → String
  | .nil => ""
  | .cons (.mk n _ _ _ t) rest => n ++ " " ++ typeString t ++ "; " ++ fieldsString rest
end

mutual
/-- `reflect.New(t).Elem()`: the zero value of a type (used when the
walker allocates a nil pointer field, structflag.go:196). -/
def zeroValue : GoType → GoValue
  | .bool => .bool false
  | .float64 => .float64 0
  | .int64 => .int64 0
  | .duration => .duration 0
  | .int => .int 0
  | .string => .string ""
  | .uint64 => .uint64 0
  | .uint => .uint 0
  | .custom n => .custom n ""
  | .ptr _ => .nilPtr
  | .structT fs => .structV (zeroValues fs)
  | .slice _ => .slice .nil
  | .unsupported _ => .other

/-- Zero values of a struct's fields. -/
def zeroValues : GoFields → GoValueList
  | .nil => .nil
  | .cons (.mk _ _ _ _ t) rest => .cons (zeroValue t) (zeroValues rest)
end

/-- The element-by-element copy loop that builds a slice flag's default
sequence (structflag.go:235-238 and the analogous loops for the other
element kinds); each Go iteration appends the converted element, which
in this typed model is the identity on each element. -/
def copySeq : GoValueList → GoValueList
  | .nil => .nil
  | .cons v rest => .cons v (copySeq rest)

/-- The per-field context handed from `Builder.walk` to
`Builder.walkField` (structflag.go:155-163); of the `reflect.StructField`
only `Anonymous` is consulted, so only that bit is kept.  `pfx` models
the field `prefix`. -/
structure Fieldcontext where
  fieldname : String
  helpText : String
  shorthand : String
  pfx : String
  hasFlagname : Bool
  anonymous : Bool

/-- Which pflag registration operation a field was bound with. -/
inductive RegKind where
  | bool
  | float64
  | int64
  | duration
  | int
  | string
  | uint64
  | uint
  | sliceBool
  | sliceFloat64
  | sliceInt64
  | sliceDuration
  | sliceInt
  | sliceString
  | sliceUint
  | varP (tyName : String)

/-- One flag registration produced by the walk: the external name, the
shorthand, the help text, the registration operation used, and the
default value passed to the engine (for slices, the element-by-element
copy of the field's contents). -/
structure Reg where
  name : String
  shorthand : String
  help : String
  kind : RegKind
  dflt : GoValue

/-- The inner switch of the slice case of `Builder.walkField`
(structflag.go:233-289): the element kinds with a registration
operation.  `reflect.Uint64` has no case (it is commented out in the
source) and so falls to the panic default, as does every other
element kind. -/
def sliceRegKind : GoType → Option RegKind
  | .bool => some .sliceBool
  | .float64 => some .sliceFloat64
  | .duration => some .sliceDuration
  | .int64 => some .sliceInt64
  | .int => some .sliceInt
  | .string => some .sliceString
  | .uint => some .sliceUint
  | _ => none

/-- The `HasHelpText` capability check (structflag.go:125-131).  Whether
a field's type implements `HelpText()` is a property of caller-defined
types, not of the walker, and no claim constrains the produced help
text; the model's universe gives the capability to no type, so the
check yields `none` and the walker falls back to the placeholder. -/
def valueHelpText : GoValue → Option String
  | _ => none

mutual
/-- `Builder.walk` (structflag.go:97-153): iterate over the struct's
fields; resolve the external name through the flag-name tags (the
descending loop of `resolveFieldName`); skip a field whose resolved
name is the sentinel `-`; skip an unexported field with no flag-name
tag; pass the prefixed, normalized name, the help text and the
shorthand (honored only at the top level, i.e. with an empty prefix)
to `walkField`.  A `panic` (modelled as `Except.error`) aborts the
whole walk; otherwise the registrations of all fields are concatenated
and the (possibly pointer-allocated) field values returned. -/
def walk (cfg : Config) :
    GoFields → GoValueList → String → Except String (List Reg × GoValueList)
  | .nil, vs, _ => .ok ([], vs)
  | .cons (.mk fname ftags fanon fexp fty) fs, .cons v vs, pfx =>
    let r := resolveFieldName cfg.FlagnameTags ftags fname
    if r.1 = "-" then
      match walk cfg fs vs pfx with
      | .error e => .error e
      | .ok (regs, vs') => .ok (regs, .cons v vs')
    else if !r.2 && !fexp then
      match walk cfg fs vs pfx with
      | .error e => .error e
      | .ok (regs, vs') => .ok (regs, .cons v vs')
    else
      let fieldname := cfg.FlagNameFunc (pfx ++ r.1)
      let help0 :=
        match lookupTag ftags cfg.HelpTextTag with
        | some h => h
        | none =>
          match (if fexp then valueHelpText v else none) with
          | some h => h
          | none => "-"
      let help :=
        if cfg.EnvvarSupport then
          "ENV: " ++ cfg.EnvNameFunc fieldname ++ "\t" ++ help0
        else help0
      let short :=
        match lookupTag ftags cfg.ShorthandTag with
        | some s => if pfx = "" then s else ""
        | none => ""
      match walkField cfg fty v ⟨fieldname, help, short, pfx, r.2, fanon⟩ with
      | .error e => .error e
      | .ok (regs, v') =>
        match walk cfg fs vs pfx with
        | .error e => .error e
        | .ok (regs2, vs') => .ok (regs ++ regs2, .cons v' vs')
  | .cons _ _, .nil, _ => .error "field/value shape mismatch"
termination_by structural fs _ _ => fs

/-- `Builder.walkField` (structflag.go:165-294).  First the capability
check: a type implementing `pflag.Value` (through its address when it is
not already a pointer) is registered through the generic `VarP`
operation and nothing else happens — before and regardless of the
pointer, struct and leaf dispatch.  Then the kind switch: a nil pointer
field is skipped when it has no flag-name tag, allocated (zero value)
when it has one; pointers recurse on the pointed-to value; anonymous
struct fields are walked under the unchanged prefix, named struct
fields under `prefix ++ fieldname ++ "."` (the context's `fieldname`,
which itself already begins with the prefix); supported leaves register
the matching typed operation with the field's current value as default;
slices of supported element kinds register the sequence operation with
the element-by-element copy as default; everything else panics. -/
def walkField (cfg : Config) :
    GoType → GoValue → Fieldcontext → Except String (List Reg × GoValue)
  | rt, fv, c =>
    if implementsFlagValue rt then
      .ok ([⟨c.fieldname, c.shorthand, c.helpText, .varP (valueTypeName rt), fv⟩], fv)
    else
      match rt, fv with
      | .ptr elem, .nilPtr =>
        if !c.hasFlagname then .ok ([], .nilPtr)
        else
          match walkField cfg elem (zeroValue elem) c with
          | .error e => .error e
          | .ok (regs, v') => .ok (regs, .ptr v')
      | .ptr elem, .ptr inner =>
        match walkField cfg elem inner c with
        | .error e => .error e
        | .ok (regs, v') => .ok (regs, .ptr v')
      | .structT fields, .structV vals =>
        if c.anonymous then
          match walk cfg fields vals c.pfx with
          | .error e => .error e
          | .ok (regs, vals') => .ok (regs, .structV vals')
        else
          match walk cfg fields vals (c.pfx ++ c.fieldname ++ ".") with
          | .error e => .error e
          | .ok (regs, vals') => .ok (regs, .structV vals')
      | .bool, .bool b =>
        .ok ([⟨c.fieldname, c.shorthand, c.helpText, .bool, .bool b⟩], .bool b)
      | .float64, .float64 x =>
        .ok ([⟨c.fieldname, c.shorthand, c.helpText, .float64, .float64 x⟩], .float64 x)
      | .duration, .duration i =>
        .ok ([⟨c.fieldname, c.shorthand, c.helpText, .duration, .duration i⟩], .duration i)
      | .int64, .int64 i =>
        .ok ([⟨c.fieldname, c.shorthand, c.helpText, .int64, .int64 i⟩], .int64 i)
      | .int, .int i =>
        .ok ([⟨c.fieldname, c.shorthand, c.helpText, .int, .int i⟩], .int i)
      | .string, .string s =>
        .ok ([⟨c.fieldname, c.shorthand, c.helpText, .string, .string s⟩], .string s)
      | .uint64, .uint64 n =>
        .ok ([⟨c.fieldname, c.shorthand, c.helpText, .uint64, .uint64 n⟩], .uint64 n)
      | .uint, .uint n =>
        .ok ([⟨c.fieldname, c.shorthand, c.helpText, .uint, .uint n⟩], .uint n)
      | .slice elem, .slice es =>
        match sliceRegKind elem with
        | some k =>
          .ok ([⟨c.fieldname, c.shorthand, c.helpText, k, .slice (copySeq es)⟩], .slice es)
        | none => .error ("unsupported slice type " ++ typeString (.slice elem))
      | rt', _ => .error ("unsupported type " ++ typeString rt')
termination_by structural rt _ _ => rt
end

/-- `Builder.Build` (structflag.go:78-95): requires a pointer to a
struct value (anything else panics), then walks the pointed-to struct
with the empty name prefix.  The flag-set name and the engine's error
handling mode are engine metadata and are not modelled. -/
def Build (cfg : Config) : GoType → GoValue → Except String (List Reg × GoValue)
  | .ptr (.structT fields), .ptr (.structV vals) =>
    match walk cfg fields vals "" with
    | .error e => .error e
    | .ok (regs, vals') => .ok (regs, .ptr (.structV vals'))
  | rt, _ => .error (typeString rt ++ " is not pointer of struct")

/-- One registered flag of the external engine's flag set, narrowed to
the contract `FlagSet.Parse` uses: its name, its stored (rendered)
value, and the `pflag.Value.Set` operation, which receives the current
stored value and the input text and returns the new stored value plus a
possible error.  A custom `Set` may mutate its receiver and still
report an error (the test's `LogLevel.Set` does), which this signature
captures. -/
structure EFlag where
  name : String
  value : String
  set : String → String → String × Option String

/-- `pflag`'s lookup of a registered flag by name (first match). -/
def lookupFlag (nm : String) : List EFlag → Option EFlag
  | [] => none
  | f :: fs => if f.name = nm then some f else lookupFlag nm fs

/-- The engine's `FlagSet.Set(name, value)` as `FlagSet.Parse` uses it
(structflag.go:310): find the flag by name and apply its `Set`; the
mutation `Set` performed persists even when an error is reported; a
missing name is an error. -/
def setByName (nm v : String) : List EFlag → List EFlag × Option String
  | [] => ([], some ("no such flag -" ++ nm))
  | f :: fs =>
    if f.name = nm then
      let r := f.set f.value v
      ({ f with value := r.1 } :: fs, r.2)
    else
      let r := setByName nm v fs
      (f :: r.1, r.2)

/-- The environment-overlay loop of `FlagSet.Parse`
(structflag.go:306-315): visit the registered flags (here: the list of
registered names, in visit order); for each, derive the environment
variable name and, when its looked-up value is non-empty, `Set` the
flag to it; a `Set` error is recorded wrapped with the variable name
and value (structflag.go:311) but the loop continues, so the last
error encountered wins. -/
def envOverlay (envNameFunc env : String → String) :
    List String → List EFlag → Option String → List EFlag × Option String
  | [], st, err => (st, err)
  | n :: ns, st, err =>
    let en := envNameFunc n
    let v := env en
    if v = "" then envOverlay envNameFunc env ns st err
    else
      let r := setByName n v st
      match r.2 with
      | none => envOverlay envNameFunc env ns r.1 err
      | some e =>
        envOverlay envNameFunc env ns r.1
          (some ("on envvar " ++ en ++ "=" ++ v ++ ", " ++ e))

/-- `FlagSet.Parse` (structflag.go:301-320).  The delegation to the
external engine's token parser is abstracted as its outcome `engine`:
the flag state it left behind and its error, if any.  On an engine
error that error is returned at once and no overlay runs; otherwise,
when environment support is enabled, the overlay visits every
registered flag in order; the returned pair is the final flag state
(the caller's record, which the flags alias) and `Parse`'s error. -/
def FlagSetParse (envvarSupport : Bool) (envNameFunc env : String → String)
    (engine : List EFlag × Option String) : List EFlag × Option String :=
  match engine with
  | (st, some e) => (st, some e)
  | (st, none) =>
    if envvarSupport then envOverlay envNameFunc env (st.map (·.name)) st none
    else (st, none)

/-- `LogLevel.Validate` (structflag_test.go:240-247): `none` for a
recognized level, otherwise the formatted error message. -/
def LogLevelValidate (v : String) : Option String :=
  if v = "DEBUG" ∨ v = "INFO" ∨ v = "WARN" ∨ v = "ERROR" then none
  else some (v ++ " is an invalid value for structflag_test.LogLevel")

/-- `LogLevel.Set` on a non-nil receiver (structflag_test.go:263-269):
assign the upper-cased input first, then validate — the assignment
stands even when validation fails. -/
def LogLevelSet (_current input : String) : String × Option String :=
  let nv := goToUpper input
  (nv, LogLevelValidate nv)

/-- `LogLevel.Set` on a possibly-nil `*LogLevel` receiver
(structflag_test.go:263-269): a nil receiver reports an error and
mutates nothing; otherwise as `LogLevelSet`. -/
def LogLevelPtrSet (current : Option String) (input : String) :
    Option String × Option String :=
  match current with
  | none => (none, some "nil is invalid for *structflag_test.LogLevel")
  | some cur =>
    let r := LogLevelSet cur input
    (some r.1, r.2)

/-! Helper lemmas about the walk -/

theorem copySeq_id : ∀ vs : GoValueList, copySeq vs = vs
  | .nil => rfl
  | .cons v rest => congrArg (GoValueList.cons v) (copySeq_id rest)

theorem resolveFieldName_cons (t : String) (rest : List String)
    (tags : List (String × String)) (raw : String) :
    resolveFieldName (t :: rest) tags raw =
      match lookupTag tags t with
      | some v => (v, true)
      | none => resolveFieldName rest tags raw := by
  cases h : lookupTag tags t <;>
    simp [resolveFieldName, List.foldl_append, h]

/-! Claim C2: flag-name tag precedence -/

/-- Claim C2, counterexample: with configured tags `["a", "b"]`, a field
carrying both `a:"x"` and `b:"y"` resolves to `"x"`, the value of the
EARLIER configured tag, not `"y"` as the claim ("later entries in the
list win") predicts: the loop at structflag.go:106-111 runs `j` from
`len(FlagnameTags)-1` down to `0`, so the earliest present tag
overwrites last. -/
theorem flagname_tag_later_wins_cex :
    resolveFieldName ["a", "b"] [("a", "x"), ("b", "y")] "F" = ("x", true) ∧
    resolveFieldName ["a", "b"] [("a", "x"), ("b", "y")] "F" ≠ ("y", true) :=
  ⟨rfl, by decide⟩

/-- Claim C2, amended: for every field carrying more than one of the
configured flag-name tags, the external flag name is the value of the
tag that appears EARLIEST in the configured tag list: the configured
tags are consulted in reverse order, each present tag overwriting the
name, so earlier entries in the list win over later ones. -/
theorem flagname_tag_first_wins (pre : List String) (t : String)
    (post : List String) (tags : List (String × String)) (raw v : String)
    (ht : lookupTag tags t = some v)
    (hpre : ∀ t₂ ∈ pre, lookupTag tags t₂ = none) :
    resolveFieldName (pre ++ t :: post) tags raw = (v, true) := by
  induction pre with
  | nil => simp [resolveFieldName_cons, ht]
  | cons p ps ih =>
    have hp : lookupTag tags p = none := hpre p (by simp)
    have h₂ := ih (fun t₂ h => hpre t₂ (by simp [h]))
    simpa [resolveFieldName_cons, hp] using h₂

/-- Witness for `flagname_tag_first_wins` at a concrete input: with
configured tags `["flag", "json"]` and a field tagged only `json:"y"`,
the resolved name is `("y", true)`. -/
theorem flagname_tag_first_wins_witness :
    resolveFieldName ["flag", "json"] [("json", "y")] "F" = ("y", true) :=
  flagname_tag_first_wins ["flag"] "json" [] [("json", "y")] "F" "y" rfl
    (by decide)

/-! Claim C3: nested-record name prefixes -/

/-- The C3 failing input, a record nested two levels deep:
`struct { Outer struct { Inner struct { Leaf string } } }`,
all fields named, exported, untagged. -/
def nestedInnerTy : GoType :=
  .structT (.cons (.mk "Leaf" [] false true .string) .nil)

def nestedOuterTy : GoType :=
  .structT (.cons (.mk "Inner" [] false true nestedInnerTy) .nil)

def nestedTopTy : GoType :=
  .structT (.cons (.mk "Outer" [] false true nestedOuterTy) .nil)

def nestedTopVal : GoValue :=
  .structV (.cons (.structV (.cons (.structV (.cons (.string "") .nil))
    .nil)) .nil)

/-- Claim C3, code divergence: on the depth-2 nested record the walker
registers the leaf as `Outer.Outer.Inner.Leaf`, not `Outer.Inner.Leaf`
as the claim states: the struct case of `walkField`
(structflag.go:204) extends the prefix with the context's `fieldname`,
which was already prefixed at structflag.go:118, so every nesting level
beyond the first duplicates the accumulated prefix. -/
theorem nested_prefix_duplication :
    Except.map (fun p => p.1.map Reg.name)
        (Build (DefaultConfig "") (.ptr nestedTopTy) (.ptr nestedTopVal)) =
      .ok ["Outer.Outer.Inner.Leaf"] ∧
    (["Outer.Outer.Inner.Leaf"] : List String) ≠ ["Outer.Inner.Leaf"] :=
  ⟨rfl, by decide⟩

/-! Claim C5: slice field bindings -/

/-- Claim C5, counterexample: a `[]uint64` field is not bound — the
slice dispatch of `walkField` has no `reflect.Uint64` case (it is
commented out at structflag.go:286) and falls through to the
build-time panic. -/
theorem uint64_slice_rejected_cex :
    walkField (DefaultConfig "") (.slice .uint64) (.slice .nil)
        ⟨"nums", "-", "", "", false, false⟩ =
      .error "unsupported slice type []uint64" := rfl

/-- Claim C5, amended: every slice field whose element kind is boolean,
64-bit float, 64-bit signed integer, duration, machine-width signed
integer, text, or machine-width unsigned integer is bound to the
corresponding sequence registration with the field's current contents,
copied element by element, as the default sequence; a slice of 64-bit
UNSIGNED integers is rejected with a build-time panic. -/
theorem slice_field_bindings (cfg : Config) (c : Fieldcontext)
    (es : GoValueList) :
    (walkField cfg (.slice .bool) (.slice es) c =
      .ok ([⟨c.fieldname, c.shorthand, c.helpText, .sliceBool, .slice es⟩],
        .slice es)) ∧
    (walkField cfg (.slice .float64) (.slice es) c =
      .ok ([⟨c.fieldname, c.shorthand, c.helpText, .sliceFloat64, .slice es⟩],
        .slice es)) ∧
    (walkField cfg (.slice .int64) (.slice es) c =
      .ok ([⟨c.fieldname, c.shorthand, c.helpText, .sliceInt64, .slice es⟩],
        .slice es)) ∧
    (walkField cfg (.slice .duration) (.slice es) c =
      .ok ([⟨c.fieldname, c.shorthand, c.helpText, .sliceDuration, .slice es⟩],
        .slice es)) ∧
    (walkField cfg (.slice .int) (.slice es) c =
      .ok ([⟨c.fieldname, c.shorthand, c.helpText, .sliceInt, .slice es⟩],
        .slice es)) ∧
    (walkField cfg (.slice .string) (.slice es) c =
      .ok ([⟨c.fieldname, c.shorthand, c.helpText, .sliceString, .slice es⟩],
        .slice es)) ∧
    (walkField cfg (.slice .uint) (.slice es) c =
      .ok ([⟨c.fieldname, c.shorthand, c.helpText, .sliceUint, .slice es⟩],
        .slice es)) ∧
    (walkField cfg (.slice .uint64) (.slice es) c =
      .error "unsupported slice type []uint64") := by
  refine ⟨?_, ?_, ?_, ?_, ?_, ?_, ?_, ?_⟩ <;>
    simp [walkField, sliceRegKind, copySeq_id, implementsFlagValue,
      typeString]

/-! Claim C7: unsupported kinds are build-time faults -/

/-- Claim C7: a visited field whose kind is none of the supported leaves,
pointer, record or supported sequence, and whose type does not
implement the value capability, makes the build panic (`Except.error`
aborting the whole walk), so it never silently receives a flag and the
fault is never deferred to `Parse`: (1) `walkField` on such a type
always errors; (2) the error propagates out of `walk` for any visible
field (tagged, or exported) of such a type. -/
theorem unsupported_kind_build_fault (cfg : Config) :
    (∀ s fv c, walkField cfg (.unsupported s) fv c =
      .error ("unsupported type " ++ s)) ∧
    (∀ fname ftags fanon fexp s fv fs vs pfx n0 hasTag,
      resolveFieldName cfg.FlagnameTags ftags fname = (n0, hasTag) →
      n0 ≠ "-" → (hasTag = true ∨ fexp = true) →
      walk cfg (.cons (.mk fname ftags fanon fexp (.unsupported s)) fs)
          (.cons fv vs) pfx =
        .error ("unsupported type " ++ s)) := by
  constructor
  · intro s fv c
    simp [walkField, implementsFlagValue, typeString]
  · intro fname ftags fanon fexp s fv fs vs pfx n0 hasTag hres hne hvis
    rcases hvis with h | h <;>
      simp [walk, hres, hne, h, walkField, implementsFlagValue, typeString]

/-- Witness for `unsupported_kind_build_fault` at a concrete input: an
exported untagged field `F` of Go type `map[string]int` aborts the walk. -/
theorem unsupported_kind_build_fault_witness :
    walk (DefaultConfig "")
        (.cons (.mk "F" [] false true (.unsupported "map[string]int")) .nil)
        (.cons .other .nil) "" =
      .error "unsupported type map[string]int" :=
  (unsupported_kind_build_fault (DefaultConfig "")).2 "F" [] false true
    "map[string]int" .other .nil .nil "" "F" false rfl (by decide)
    (Or.inr rfl)

/-! Claim C9: unexported fields -/

/-- Claim C9: an unexported field with no configured flag-name tag is
skipped — the walk of the remaining fields is unchanged and the field's
value untouched — while an unexported field that carries a flag-name
tag (value not the `-` sentinel; shown here for a text field) does
produce a registered flag, named from the tag and defaulted from the
field's storage. -/
theorem unexported_field_rules (cfg : Config) :
    (∀ fname ftags fanon fty n0 fs (v : GoValue) vs pfx,
      resolveFieldName cfg.FlagnameTags ftags fname = (n0, false) →
      walk cfg (.cons (.mk fname ftags fanon false fty) fs)
          (.cons v vs) pfx =
        Except.map (fun p => (p.1, GoValueList.cons v p.2))
          (walk cfg fs vs pfx)) ∧
    (∀ fname ftags fanon n0 s fs vs pfx regs₂ vs₂,
      resolveFieldName cfg.FlagnameTags ftags fname = (n0, true) →
      n0 ≠ "-" →
      walk cfg fs vs pfx = .ok (regs₂, vs₂) →
      Except.map (fun p => (p.1.map (fun r => (r.name, r.kind, r.dflt)), p.2))
          (walk cfg (.cons (.mk fname ftags fanon false .string) fs)
            (.cons (.string s) vs) pfx) =
        .ok ((cfg.FlagNameFunc (pfx ++ n0), RegKind.string, GoValue.string s) ::
          regs₂.map (fun r => (r.name, r.kind, r.dflt)),
          .cons (.string s) vs₂)) := by
  constructor
  · intro fname ftags fanon fty n0 fs v vs pfx hres
    cases h : walk cfg fs vs pfx <;>
      simp [walk, hres, h, Except.map]
  · intro fname ftags fanon n0 s fs vs pfx regs₂ vs₂ hres hne hrest
    simp [walk, hres, hne, hrest, walkField, implementsFlagValue, Except.map]

/-- Witness for `unexported_field_rules` at concrete inputs: an
unexported untagged field `name` yields no flag; an unexported field
tagged `flag:"name"` yields the flag `name` defaulted to its storage. -/
theorem unexported_field_rules_witness :
    (walk (DefaultConfig "")
        (.cons (.mk "name" [] false false .string) .nil)
        (.cons (.string "x") .nil) "" =
      Except.map (fun p => (p.1, GoValueList.cons (.string "x") p.2))
        (walk (DefaultConfig "") .nil .nil "")) ∧
    (Except.map (fun p => (p.1.map (fun r => (r.name, r.kind, r.dflt)), p.2))
        (walk (DefaultConfig "")
          (.cons (.mk "name" [("flag", "name")] false false .string) .nil)
          (.cons (.string "x") .nil) "") =
      .ok ([((DefaultConfig "").FlagNameFunc ("" ++ "name"),
        RegKind.string, GoValue.string "x")], .cons (.string "x") .nil)) := by
  constructor
  · exact (unexported_field_rules (DefaultConfig "")).1 "name" [] false
      .string "name" .nil (.string "x") .nil "" rfl
  · exact (unexported_field_rules (DefaultConfig "")).2 "name"
      [("flag", "name")] false "name" "x" .nil .nil "" [] .nil rfl
      (by decide) rfl

/-! Claim C10: capability check precedes pointer rules -/

/-- Claim C10: for a field whose pointer type implements the value
capability, the capability check of `walkField` runs before the
nil-pointer rules: the field is registered through the generic `VarP`
registration on the pointer itself, for every pointer value — in
particular a nil pointer with no flag-name tag — and the value is
returned unchanged (the nil pointer is neither skipped nor allocated). -/
theorem ptr_custom_capability_before_nil (cfg : Config) (tn : String)
    (c : Fieldcontext) (fv : GoValue) :
    walkField cfg (.ptr (.custom tn)) fv c =
      .ok ([⟨c.fieldname, c.shorthand, c.helpText, .varP tn, fv⟩], fv) ∧
    walkField cfg (.ptr (.custom tn)) GoValue.nilPtr
        { c with hasFlagname := false } =
      .ok ([⟨c.fieldname, c.shorthand, c.helpText, .varP tn,
        GoValue.nilPtr⟩], GoValue.nilPtr) := by
  constructor <;>
    · rw [walkField.eq_def]
      simp [implementsFlagValue, valueTypeName]

/-! Helper lemmas about the environment overlay -/

theorem setByName_lookup_other (nm v m : String) (hne : m ≠ nm) :
    ∀ st : List EFlag, lookupFlag m (setByName nm v st).1 = lookupFlag m st := by
  intro st
  induction st with
  | nil => rfl
  | cons f fs ih =>
    by_cases h : f.name = nm
    · have hm : f.name ≠ m := by rw [h]; exact Ne.symm hne
      simp [setByName, h, lookupFlag, hm, Ne.symm hne]
    · simp [setByName, h, lookupFlag, ih]

theorem setByName_lookup_found (nm v : String) :
    ∀ (st : List EFlag) (f : EFlag), lookupFlag nm st = some f →
      (setByName nm v st).2 = (f.set f.value v).2 ∧
      lookupFlag nm (setByName nm v st).1 =
        some { f with value := (f.set f.value v).1 } := by
  intro st
  induction st with
  | nil => intro f h; simp [lookupFlag] at h
  | cons g gs ih =>
    intro f h
    by_cases hg : g.name = nm
    · rw [lookupFlag, if_pos hg] at h
      cases h
      refine ⟨by simp [setByName, hg], ?_⟩
      simp [setByName, hg, lookupFlag]
    · rw [lookupFlag, if_neg hg] at h
      have h₂ := ih f h
      exact ⟨by simp [setByName, hg, h₂.1],
        by simp [setByName, hg, lookupFlag, h₂.2]⟩

theorem envOverlay_append (enf env : String → String) (ns₁ ns₂ : List String) :
    ∀ (st : List EFlag) (err : Option String),
      envOverlay enf env (ns₁ ++ ns₂) st err =
        envOverlay enf env ns₂ (envOverlay enf env ns₁ st err).1
          (envOverlay enf env ns₁ st err).2 := by
  induction ns₁ with
  | nil => intro st err; rfl
  | cons n ns ih =>
    intro st err
    by_cases hv : env (enf n) = ""
    · simp [envOverlay, hv, ih]
    · cases hr : (setByName n (env (enf n)) st).2 <;>
        simp [envOverlay, hv, hr, ih]

theorem envOverlay_lookup_not_mem (enf env : String → String) (m : String) :
    ∀ ns : List String, m ∉ ns → ∀ (st : List EFlag) (err : Option String),
      lookupFlag m (envOverlay enf env ns st err).1 = lookupFlag m st := by
  intro ns
  induction ns with
  | nil => intro _ st err; rfl
  | cons n ns ih =>
    intro hm st err
    have hmn : m ≠ n := fun h => hm (by simp [h])
    have hm₂ : m ∉ ns := fun h => hm (by simp [h])
    by_cases hv : env (enf n) = ""
    · simp [envOverlay, hv, ih hm₂]
    · cases hr : (setByName n (env (enf n)) st).2 <;>
        simp [envOverlay, hv, hr, ih hm₂,
          setByName_lookup_other n (env (enf n)) m hmn]

theorem envOverlay_err_of_all_ok (enf env : String → String) :
    ∀ ns : List String, ns.Nodup →
      ∀ (st : List EFlag) (err : Option String),
        (∀ n ∈ ns, env (enf n) = "" ∨
          ∃ f, lookupFlag n st = some f ∧
            (f.set f.value (env (enf n))).2 = none) →
        (envOverlay enf env ns st err).2 = err := by
  intro ns
  induction ns with
  | nil => intro _ st err _; rfl
  | cons n ns ih =>
    intro hnd st err hok
    obtain ⟨hn, hnd₂⟩ := List.nodup_cons.mp hnd
    by_cases hv : env (enf n) = ""
    · rw [envOverlay]
      simp only [hv, if_pos rfl]
      exact ih hnd₂ st err (fun m hm => hok m (by simp [hm]))
    · rcases hok n (by simp) with h | ⟨f, hf, hset⟩
      · exact absurd h hv
      · have h₂ := setByName_lookup_found n (env (enf n)) st f hf
        have hr : (setByName n (env (enf n)) st).2 = none := by
          rw [h₂.1, hset]
        rw [envOverlay]
        simp only [hv, if_neg, hr]
        have hnext := ih hnd₂ (setByName n (env (enf n)) st).1 err
          (fun m hm => by
            rcases hok m (by simp [hm]) with h | ⟨g, hg, hgset⟩
            · exact Or.inl h
            · refine Or.inr ⟨g, ?_, hgset⟩
              rw [setByName_lookup_other n (env (enf n)) m
                (fun he => hn (he ▸ hm)) st]
              exact hg)
        simpa [hv, hr] using hnext

theorem lookupFlag_of_nodup_mem :
    ∀ st : List EFlag, (st.map EFlag.name).Nodup →
      ∀ f : EFlag, f ∈ st → lookupFlag f.name st = some f := by
  intro st
  induction st with
  | nil => intro _ f h; simp at h
  | cons g gs ih =>
    intro hnd f hf
    have hnd₂ : g.name ∉ gs.map EFlag.name ∧ (gs.map EFlag.name).Nodup := by
      rw [List.map_cons, List.nodup_cons] at hnd; exact hnd
    rcases List.mem_cons.mp hf with h | h
    · subst h; simp [lookupFlag]
    · have hgn : g.name ≠ f.name :=
        fun he => hnd₂.1 (he ▸ List.mem_map_of_mem EFlag.name h)
      rw [lookupFlag, if_neg hgn]
      exact ih hnd₂.2 f h

/-- Splitting a duplicate-free name list around a member flag's name. -/
theorem names_split_of_nodup_mem (st : List EFlag) (f : EFlag)
    (hnd : (st.map EFlag.name).Nodup) (hf : f ∈ st) :
    ∃ ns₁ ns₂, st.map EFlag.name = ns₁ ++ f.name :: ns₂ ∧
      f.name ∉ ns₁ ∧ f.name ∉ ns₂ := by
  have hmem : f.name ∈ st.map EFlag.name := List.mem_map_of_mem _ hf
  obtain ⟨ns₁, ns₂, hsplit⟩ := List.append_of_mem hmem
  rw [hsplit] at hnd
  refine ⟨ns₁, ns₂, hsplit, ?_, ?_⟩
  · exact fun h₁ => List.disjoint_of_nodup_append hnd h₁ (by simp)
  · exact (List.nodup_cons.mp (List.nodup_append.mp hnd).2.1).1

/-- A flag whose derived environment variable reads empty is untouched
by the whole overlay pass. -/
theorem envOverlay_flag_empty (enf env : String → String) (st : List EFlag)
    (f : EFlag) (err : Option String)
    (hnd : (st.map EFlag.name).Nodup) (hf : f ∈ st)
    (hv : env (enf f.name) = "") :
    lookupFlag f.name (envOverlay enf env (st.map EFlag.name) st err).1 =
      some f := by
  obtain ⟨ns₁, ns₂, hsplit, h₁, h₂⟩ := names_split_of_nodup_mem st f hnd hf
  have hself : lookupFlag f.name st = some f :=
    lookupFlag_of_nodup_mem st hnd f hf
  rw [hsplit, envOverlay_append]
  simp only [envOverlay, hv, if_pos]
  rw [envOverlay_lookup_not_mem enf env f.name ns₂ h₂,
    envOverlay_lookup_not_mem enf env f.name ns₁ h₁]
  exact hself

/-- A flag whose derived environment variable reads a non-empty value
that its `Set` accepts ends the overlay holding the applied value. -/
theorem envOverlay_flag_set (enf env : String → String) (st : List EFlag)
    (f : EFlag) (err : Option String) (w : String)
    (hnd : (st.map EFlag.name).Nodup) (hf : f ∈ st)
    (hv : env (enf f.name) ≠ "")
    (hset : f.set f.value (env (enf f.name)) = (w, none)) :
    lookupFlag f.name (envOverlay enf env (st.map EFlag.name) st err).1 =
      some { f with value := w } := by
  obtain ⟨ns₁, ns₂, hsplit, h₁, h₂⟩ := names_split_of_nodup_mem st f hnd hf
  have hself : lookupFlag f.name (envOverlay enf env ns₁ st err).1 = some f := by
    rw [envOverlay_lookup_not_mem enf env f.name ns₁ h₁]
    exact lookupFlag_of_nodup_mem st hnd f hf
  rw [hsplit, envOverlay_append]
  have h₃ := setByName_lookup_found f.name (env (enf f.name))
    (envOverlay enf env ns₁ st err).1 f hself
  have hr : (setByName f.name (env (enf f.name))
      (envOverlay enf env ns₁ st err).1).2 = none := by
    rw [h₃.1, hset]
  have hw : ({ f with value := (f.set f.value (env (enf f.name))).1 } : EFlag) =
      { f with value := w } := by rw [hset]
  simp only [envOverlay, hv, hr, if_neg not_false]
  rw [envOverlay_lookup_not_mem enf env f.name ns₂ h₂]
  rw [h₃.2, hw]

/-! Claim C1: environment values override command-line values -/

/-- Claim C1: after a successful command-line parse (engine outcome
`(st, none)`) with environment support enabled, a registered flag whose
derived environment variable reads `""` (Go's `os.Getenv` reads absent
variables as `""`) still holds exactly the value the command-line parse
left, while a flag whose derived variable reads a non-empty value that
its `Set` accepts (the spec's "valid") ends up holding that applied
value, regardless of what the command line put there.  Flag names are
assumed unique — the invariant the engine enforces at registration. -/
theorem parse_env_override (enf env : String → String) (st : List EFlag)
    (f : EFlag) (hnd : (st.map EFlag.name).Nodup) (hf : f ∈ st) :
    (env (enf f.name) = "" →
      lookupFlag f.name (FlagSetParse true enf env (st, none)).1 = some f) ∧
    (∀ w, env (enf f.name) ≠ "" →
      f.set f.value (env (enf f.name)) = (w, none) →
      lookupFlag f.name (FlagSetParse true enf env (st, none)).1 =
        some { f with value := w }) :=
  ⟨fun hv => envOverlay_flag_empty enf env st f none hnd hf hv,
   fun w hv hset => envOverlay_flag_set enf env st f none w hnd hf hv hset⟩

/-- Witness for `parse_env_override`: one string-valued flag `name`
left at `"cli"` by the command line; with `NAME=envv` in the
environment the final value is `"envv"`. -/
theorem parse_env_override_witness :
    lookupFlag "name"
        (FlagSetParse true (defaultEnvName "")
          (fun en => if en = "NAME" then "envv" else "")
          ([⟨"name", "cli", fun _ inp => (inp, none)⟩], none)).1 =
      some ⟨"name", "envv", fun _ inp => (inp, none)⟩ :=
  (parse_env_override (defaultEnvName "")
      (fun en => if en = "NAME" then "envv" else "")
      [⟨"name", "cli", fun _ inp => (inp, none)⟩]
      ⟨"name", "cli", fun _ inp => (inp, none)⟩
      (by simp) (by simp)).2 "envv" (by decide) rfl

/-! Claim C4: parse error ordering and collection -/

/-- Claim C4: (i) an engine (command-line) parse error is returned
immediately, with the state exactly as the engine left it and no
overlay applied; (ii) when the engine succeeds and the visit of the
flag named `n` fails (non-empty environment value its `Set` rejects),
then — provided every visit after `n` either skips or succeeds — the
error `Parse` returns is `n`'s failure wrapped with the variable name
and value, and independently every flag visited after `n` whose
environment value its `Set` accepts is still applied despite `n`'s
earlier failure. -/
theorem parse_error_handling (sup : Bool) (enf env : String → String) :
    (∀ (st : List EFlag) (e : String),
      FlagSetParse sup enf env (st, some e) = (st, some e)) ∧
    (∀ (st : List EFlag) (ns₁ : List String) (n : String)
        (ns₂ : List String) (g : EFlag) (e : String),
      st.map EFlag.name = ns₁ ++ n :: ns₂ →
      (st.map EFlag.name).Nodup →
      lookupFlag n st = some g →
      env (enf n) ≠ "" →
      (g.set g.value (env (enf n))).2 = some e →
      ((∀ m ∈ ns₂, env (enf m) = "" ∨
          ∃ f, lookupFlag m st = some f ∧
            (f.set f.value (env (enf m))).2 = none) →
        (FlagSetParse true enf env (st, none)).2 =
          some ("on envvar " ++ enf n ++ "=" ++ env (enf n) ++ ", " ++ e)) ∧
      (∀ (f : EFlag) (w : String), f ∈ st → f.name ∈ ns₂ →
        env (enf f.name) ≠ "" →
        f.set f.value (env (enf f.name)) = (w, none) →
        lookupFlag f.name (FlagSetParse true enf env (st, none)).1 =
          some { f with value := w })) := by
  constructor
  · intro st e; rfl
  · intro st ns₁ n ns₂ g e hsplit hnd hg hv hfail
    have hnd' := hsplit ▸ hnd
    have hn₁ : n ∉ ns₁ :=
      fun h₁ => List.disjoint_of_nodup_append hnd' h₁ (by simp)
    have hnd₂ := (List.nodup_append.mp hnd').2.1
    have hn₂ : n ∉ ns₂ := (List.nodup_cons.mp hnd₂).1
    have hdisj := List.disjoint_of_nodup_append hnd'
    constructor
    · intro hok
      have hparse : (FlagSetParse true enf env (st, none)).2 =
          (envOverlay enf env (st.map EFlag.name) st none).2 := rfl
      rw [hparse, hsplit, envOverlay_append]
      have hgl : lookupFlag n (envOverlay enf env ns₁ st none).1 = some g := by
        rw [envOverlay_lookup_not_mem enf env n ns₁ hn₁]; exact hg
      have h₃ := setByName_lookup_found n (env (enf n))
        (envOverlay enf env ns₁ st none).1 g hgl
      have hr : (setByName n (env (enf n))
          (envOverlay enf env ns₁ st none).1).2 = some e := by
        rw [h₃.1, hfail]
      simp only [envOverlay, hv, hr, if_neg not_false]
      refine envOverlay_err_of_all_ok enf env ns₂
        (List.nodup_cons.mp hnd₂).2 _ _ (fun m hm => ?_)
      rcases hok m hm with h | ⟨f, hf, hfset⟩
      · exact Or.inl h
      · refine Or.inr ⟨f, ?_, hfset⟩
        rw [setByName_lookup_other n (env (enf n)) m
          (fun he => hn₂ (he ▸ hm)),
          envOverlay_lookup_not_mem enf env m ns₁
          (fun h₁ => hdisj h₁ (by simp [hm]))]
        exact hf
    · intro f w hf hfns hfv hfset
      exact envOverlay_flag_set enf env st f none w hnd hf hfv hfset

/-- Witness for `parse_error_handling`: two flags; the engine-error
part returns the error unchanged, and with `A=p` rejected by flag `a`
and `B=q` accepted by flag `b`, Parse returns `a`'s wrapped error while
`b` still received `"q"`. -/
theorem parse_error_handling_witness :
    (FlagSetParse true (goToUpper) (fun _ => "")
        ([⟨"a", "x", fun _ _ => ("BAD", some "boom")⟩], some "cli broke") =
      ([⟨"a", "x", fun _ _ => ("BAD", some "boom")⟩], some "cli broke")) ∧
    ((FlagSetParse true (goToUpper)
        (fun en => if en = "A" then "p" else if en = "B" then "q" else "")
        ([⟨"a", "x", fun _ _ => ("BAD", some "boom")⟩,
          ⟨"b", "y", fun _ inp => (inp, none)⟩], none)).2 =
      some "on envvar A=p, boom") ∧
    (lookupFlag "b"
        (FlagSetParse true (goToUpper)
          (fun en => if en = "A" then "p" else if en = "B" then "q" else "")
          ([⟨"a", "x", fun _ _ => ("BAD", some "boom")⟩,
            ⟨"b", "y", fun _ inp => (inp, none)⟩], none)).1 =
      some ⟨"b", "q", fun _ inp => (inp, none)⟩) := by
  refine ⟨(parse_error_handling true goToUpper (fun _ => "")).1 _ _, ?_, ?_⟩
  · exact (((parse_error_handling true goToUpper
      (fun en => if en = "A" then "p" else if en = "B" then "q" else "")).2
      [⟨"a", "x", fun _ _ => ("BAD", some "boom")⟩,
        ⟨"b", "y", fun _ inp => (inp, none)⟩]
      [] "a" ["b"] ⟨"a", "x", fun _ _ => ("BAD", some "boom")⟩ "boom"
      rfl (by simp) rfl (by decide) rfl).1
      (by intro m hm; simp at hm; subst hm; exact Or.inr ⟨_, rfl, rfl⟩))
  · exact (((parse_error_handling true goToUpper
      (fun en => if en = "A" then "p" else if en = "B" then "q" else "")).2
      [⟨"a", "x", fun _ _ => ("BAD", some "boom")⟩,
        ⟨"b", "y", fun _ inp => (inp, none)⟩]
      [] "a" ["b"] ⟨"a", "x", fun _ _ => ("BAD", some "boom")⟩ "boom"
      rfl (by simp) rfl (by decide) rfl).2
      ⟨"b", "y", fun _ inp => (inp, none)⟩ "q" (by simp) (by simp)
      (by decide) rfl)

/-! Claim C6: custom-value validation failures -/

/-- Claim C6, counterexample: the test's `LogLevel` bound to flag
`log-level` with prior value `"WARN"`: applying the token `"bogus"`
(as the engine does during command-line parse, modelled by
`setByName`) reports a validation error, which `Parse` returns — but
afterwards the field holds `"BOGUS"`, the upper-cased invalid token,
not its prior value `"WARN"`: `LogLevel.Set` assigns before it
validates, refuting "the bound field's prior value is unchanged". -/
theorem custom_value_mutation_cex :
    (setByName "log-level" "bogus" [⟨"log-level", "WARN", LogLevelSet⟩]).2 =
      some "BOGUS is an invalid value for structflag_test.LogLevel" ∧
    FlagSetParse true (defaultEnvName "") (fun _ => "")
        (setByName "log-level" "bogus" [⟨"log-level", "WARN", LogLevelSet⟩]) =
      ([⟨"log-level", "BOGUS", LogLevelSet⟩],
        some "BOGUS is an invalid value for structflag_test.LogLevel") ∧
    ("BOGUS" : String) ≠ "WARN" :=
  ⟨rfl, rfl, by decide⟩

/-- Claim C6, amended: a custom value type's validation failure is
surfaced as a returned parse error, and the nilness of a nil custom
pointer is unchanged by a failing `Set`; but the bound field's prior
value is not unchanged in general: the test's `LogLevel.Set` assigns
the upper-cased token before validating, so after the failure the
field holds that token. -/
theorem custom_value_failure_amended (prior input e : String)
    (hval : LogLevelValidate (goToUpper input) = some e) :
    LogLevelSet prior input = (goToUpper input, some e) ∧
    (∀ (sup : Bool) (enf env : String → String) (st : List EFlag),
      FlagSetParse sup enf env (st, some e) = (st, some e)) ∧
    LogLevelPtrSet none input =
      (none, some "nil is invalid for *structflag_test.LogLevel") := by
  refine ⟨?_, fun sup enf env st => rfl, rfl⟩
  simp [LogLevelSet, hval]

/-- Witness for `custom_value_failure_amended` at prior value `"WARN"`
and token `"bogus"`. -/
theorem custom_value_failure_amended_witness :
    LogLevelSet "WARN" "bogus" =
      ("BOGUS", some "BOGUS is an invalid value for structflag_test.LogLevel") :=
  (custom_value_failure_amended "WARN" "bogus"
    "BOGUS is an invalid value for structflag_test.LogLevel" (by decide)).1

/-! Claim C8: defaults are the field's build-time values -/

/-- Claim C8: every supported leaf field registers the field's current
value at build time as the flag's default (build half, all eight leaf
kinds), and after a `Parse` whose command-line run left a flag at some
value — in particular its default, when no argument matched it — and
whose derived environment variable is unset or empty, the flag still
holds that value (parse half). -/
theorem leaf_default_preserved (cfg : Config) (c : Fieldcontext) :
    ((∀ b, walkField cfg .bool (.bool b) c =
      .ok ([⟨c.fieldname, c.shorthand, c.helpText, .bool, .bool b⟩], .bool b)) ∧
     (∀ x, walkField cfg .float64 (.float64 x) c =
      .ok ([⟨c.fieldname, c.shorthand, c.helpText, .float64, .float64 x⟩],
        .float64 x)) ∧
     (∀ i, walkField cfg .int64 (.int64 i) c =
      .ok ([⟨c.fieldname, c.shorthand, c.helpText, .int64, .int64 i⟩],
        .int64 i)) ∧
     (∀ i, walkField cfg .duration (.duration i) c =
      .ok ([⟨c.fieldname, c.shorthand, c.helpText, .duration, .duration i⟩],
        .duration i)) ∧
     (∀ i, walkField cfg .int (.int i) c =
      .ok ([⟨c.fieldname, c.shorthand, c.helpText, .int, .int i⟩], .int i)) ∧
     (∀ s, walkField cfg .string (.string s) c =
      .ok ([⟨c.fieldname, c.shorthand, c.helpText, .string, .string s⟩],
        .string s)) ∧
     (∀ n, walkField cfg .uint64 (.uint64 n) c =
      .ok ([⟨c.fieldname, c.shorthand, c.helpText, .uint64, .uint64 n⟩],
        .uint64 n)) ∧
     (∀ n, walkField cfg .uint (.uint n) c =
      .ok ([⟨c.fieldname, c.shorthand, c.helpText, .uint, .uint n⟩],
        .uint n))) ∧
    (∀ (enf env : String → String) (st : List EFlag) (f : EFlag),
      (st.map EFlag.name).Nodup → f ∈ st → env (enf f.name) = "" →
      lookupFlag f.name (FlagSetParse true enf env (st, none)).1 = some f) := by
  constructor
  · refine ⟨?_, ?_, ?_, ?_, ?_, ?_, ?_, ?_⟩ <;>
      (intro a; simp [walkField, implementsFlagValue])
  · intro enf env st f hnd hf hv
    exact envOverlay_flag_empty enf env st f none hnd hf hv

/-- Witness for `leaf_default_preserved`: an `int` flag `age` with
default `20`, and a parse with empty environment leaving `age` at its
engine value `20`. -/
theorem leaf_default_preserved_witness :
    (walkField (DefaultConfig "") .int (.int 20)
        ⟨"age", "-", "", "", false, false⟩ =
      .ok ([⟨"age", "", "-", .int, .int 20⟩], .int 20)) ∧
    (lookupFlag "age"
        (FlagSetParse true (defaultEnvName "") (fun _ => "")
          ([⟨"age", "20", fun _ inp => (inp, none)⟩], none)).1 =
      some ⟨"age", "20", fun _ inp => (inp, none)⟩) := by
  constructor
  · have h := ((leaf_default_preserved (DefaultConfig "")
      ⟨"age", "-", "", "", false, false⟩).1).2.2.2.2.1 20
    simpa using h
  · exact (leaf_default_preserved (DefaultConfig "")
      ⟨"age", "-", "", "", false, false⟩).2 (defaultEnvName "") (fun _ => "")
      [⟨"age", "20", fun _ inp => (inp, none)⟩]
      ⟨"age", "20", fun _ inp => (inp, none)⟩ (by simp) (by simp) rfl

end Structflag
